import Mathlib

/-
Verification of the go-pidpool PID controller (src/pid.go).

Modelling conventions:
* Go `float64` values are modelled as exact rationals `ℚ`.  The only place the
  implementation itself produces a non-finite float is the constructor, which
  sets the output limits to `math.Inf(-1)` / `math.Inf(1)`; those two fields are
  therefore modelled by the extended-rational type `Ext` below.  NaN and
  rounding behaviour of IEEE arithmetic are outside the model.
* The mutex only serialises calls; each serialised call is a pure state
  transformer, so every method becomes a function from the controller state
  (and explicit arguments) to a result together with the new state.
* `time.Now()` in `Update` is a hidden input; it is made explicit as a `now`
  argument, and `lastUpdate` is kept as a rational timestamp.
* A Go `error` result is modelled as `Option String` (`none` = nil error).
-/

namespace Pidpool

/-- Extended rationals: the value space for the `outputMin`/`outputMax`
fields, which `NewPID` initialises to `math.Inf(-1)` / `math.Inf(1)`. -/
inductive Ext where
  | ninf : Ext
  | fin : ℚ → Ext
  | pinf : Ext
deriving DecidableEq

/-- Strict `<` on `Ext`, mirroring float64 `<` on non-NaN values. -/
def Ext.blt : Ext → Ext → Bool
  | _, Ext.ninf => false
  | Ext.ninf, _ => true
  | Ext.fin a, Ext.fin b => decide (a < b)
  | Ext.fin _, Ext.pinf => true
  | Ext.pinf, _ => false

/-- `a ≤ b` on `Ext`, as the negation of `b < a`. -/
def Ext.ble (a b : Ext) : Bool := !(Ext.blt b a)

/-- The controller state: the fields of `struct PID` in src/pid.go
(the mutex carries no data and is omitted; `lastUpdate` is a rational
timestamp in seconds). -/
structure PID where
  kp : ℚ
  ki : ℚ
  kd : ℚ
  outputMin : Ext
  outputMax : Ext
  integralMin : ℚ
  integralMax : ℚ
  setPoint : ℚ
  prevValue : ℚ
  integral : ℚ
  prevError : ℚ
  lastUpdate : ℚ
  deadBand : ℚ
deriving DecidableEq

/-- `NewPID` (src/pid.go lines 32-44): gains and dead-band from the caller,
output limits `(-∞, +∞)`, integral limits `(-100, 100)`, everything else zero,
`lastUpdate` set to the current time (explicit `now`). -/
def NewPID (kp ki kd deadBand now : ℚ) : PID :=
  { kp := kp
    ki := ki
    kd := kd
    outputMin := Ext.ninf
    outputMax := Ext.pinf
    integralMin := -100
    integralMax := 100
    setPoint := 0
    prevValue := 0
    integral := 0
    prevError := 0
    lastUpdate := now
    deadBand := deadBand }

/-- `SetOutputLimits` (src/pid.go lines 47-56). -/
def SetOutputLimits (pid : PID) (min max : ℚ) : Option String × PID :=
  if min > max then (some "min output greater than max output", pid)
  else (none, { pid with outputMin := Ext.fin min, outputMax := Ext.fin max })

/-- The clamp pattern `if x > hi { x = hi } else if x < lo { x = lo }`
used on the integral accumulator (src/pid.go lines 68-72 and 135-139). -/
def clampQ (lo hi x : ℚ) : ℚ :=
  if x > hi then hi else if x < lo then lo else x

/-- `SetIntegralLimits` (src/pid.go lines 59-75): sets the limits and re-clamps
the current accumulator into the new range. -/
def SetIntegralLimits (pid : PID) (min max : ℚ) : Option String × PID :=
  if min > max then (some "min integral greater than max integral", pid)
  else
    let p1 := { pid with integralMin := min, integralMax := max }
    (none, { p1 with integral := clampQ p1.integralMin p1.integralMax p1.integral })

/-- `SetSetPoint` (src/pid.go lines 78-82). -/
def SetSetPoint (pid : PID) (val : ℚ) : PID :=
  { pid with setPoint := val }

/-- `GetSetPoint` (src/pid.go lines 85-89). -/
def GetSetPoint (pid : PID) : ℚ := pid.setPoint

/-- `SetPID` (src/pid.go lines 92-96). -/
def SetPID (pid : PID) (kp ki kd : ℚ) : PID :=
  { pid with kp := kp, ki := ki, kd := kd }

/-- `GetPID` (src/pid.go lines 99-103). -/
def GetPID (pid : PID) : ℚ × ℚ × ℚ := (pid.kp, pid.ki, pid.kd)

/-- The error after the dead-band test (src/pid.go lines 128-131):
`err := setPoint - value; if math.Abs(err) < deadBand { err = 0 }`. -/
def appliedError (pid : PID) (value : ℚ) : ℚ :=
  let e := pid.setPoint - value
  if |e| < pid.deadBand then 0 else e

/-- The derivative-on-measurement term (src/pid.go lines 141-145):
`-(value - prevValue) / dt` when `dt > 0`, otherwise `0`. -/
def derivativeTerm (prevValue value dt : ℚ) : ℚ :=
  if dt > 0 then -(value - prevValue) / dt else 0

/-- The output clamp (src/pid.go lines 150-154) against the extended-rational
output limits. -/
def clampOut (lo hi : Ext) (x : ℚ) : Ext :=
  if Ext.blt hi (Ext.fin x) then hi
  else if Ext.blt (Ext.fin x) lo then lo
  else Ext.fin x

/-- `updateInternal` (src/pid.go lines 125-158): returns the clamped output and
the new state (integral accumulated and clamped, `prevValue` and `prevError`
stored). -/
def updateInternal (pid : PID) (value dt : ℚ) : Ext × PID :=
  let err := appliedError pid value
  let integral := clampQ pid.integralMin pid.integralMax (pid.integral + err * dt)
  let derivative := derivativeTerm pid.prevValue value dt
  let output := pid.kp * err + pid.ki * integral + pid.kd * derivative
  (clampOut pid.outputMin pid.outputMax output,
   { pid with integral := integral, prevValue := value, prevError := err })

/-- `UpdateDuration` (src/pid.go lines 119-123): caller-supplied `dt`,
`lastUpdate` untouched. -/
def UpdateDuration (pid : PID) (value dt : ℚ) : Ext × PID :=
  updateInternal pid value dt

/-- `Update` (src/pid.go lines 107-116): wall-clock `dt` (the clock reading is
the explicit `now` argument), `lastUpdate` advanced to `now`. -/
def Update (pid : PID) (value now : ℚ) : Ext × PID :=
  let dt := now - pid.lastUpdate
  updateInternal { pid with lastUpdate := now } value dt

/-- One public mutating call on the controller, with all inputs explicit. -/
inductive Op where
  | setOutputLimits : ℚ → ℚ → Op
  | setIntegralLimits : ℚ → ℚ → Op
  | setSetPoint : ℚ → Op
  | setPID : ℚ → ℚ → ℚ → Op
  | update : ℚ → ℚ → Op
  | updateDuration : ℚ → ℚ → Op

/-- The state transition of one call (return values discarded). -/
def applyOp (pid : PID) : Op → PID
  | Op.setOutputLimits a b => (SetOutputLimits pid a b).2
  | Op.setIntegralLimits a b => (SetIntegralLimits pid a b).2
  | Op.setSetPoint v => SetSetPoint pid v
  | Op.setPID a b c => SetPID pid a b c
  | Op.update v n => (Update pid v n).2
  | Op.updateDuration v dt => (UpdateDuration pid v dt).2

/-- A state is reachable when it results from a constructor call followed by
any finite sequence of public calls. -/
def Reachable (pid : PID) : Prop :=
  ∃ kp ki kd db now ops,
    pid = List.foldl applyOp (NewPID kp ki kd db now) ops

/-- The state invariant: output limits are ordered and the integral
accumulator lies inside its limits. -/
def WF (pid : PID) : Prop :=
  Ext.ble pid.outputMin pid.outputMax = true ∧
  pid.integralMin ≤ pid.integral ∧ pid.integral ≤ pid.integralMax

theorem Ext.blt_irrefl (a : Ext) : Ext.blt a a = false := by
  cases a <;> simp [Ext.blt]

theorem clampQ_between (lo hi x : ℚ) (h : lo ≤ hi) :
    lo ≤ clampQ lo hi x ∧ clampQ lo hi x ≤ hi := by
  unfold clampQ
  split_ifs with h1 h2 <;> constructor <;> linarith

theorem clampOut_between (lo hi : Ext) (x : ℚ) (h : Ext.ble lo hi = true) :
    Ext.ble lo (clampOut lo hi x) = true ∧ Ext.ble (clampOut lo hi x) hi = true := by
  unfold clampOut
  split_ifs with h1 h2
  · exact ⟨h, by simp [Ext.ble, Ext.blt_irrefl]⟩
  · exact ⟨by simp [Ext.ble, Ext.blt_irrefl], h⟩
  · simp only [Bool.not_eq_true] at h1 h2
    exact ⟨by simp [Ext.ble, h2], by simp [Ext.ble, h1]⟩

theorem wf_NewPID (kp ki kd db now : ℚ) : WF (NewPID kp ki kd db now) := by
  refine ⟨rfl, ?_, ?_⟩ <;> norm_num [NewPID]

theorem wf_SetOutputLimits (p : PID) (a b : ℚ) (h : WF p) :
    WF (SetOutputLimits p a b).2 := by
  unfold SetOutputLimits
  split_ifs with h1
  · exact h
  · refine ⟨?_, h.2.1, h.2.2⟩
    simp only [not_lt] at h1
    simp [Ext.ble, Ext.blt, not_lt_of_le h1]

theorem wf_SetIntegralLimits (p : PID) (a b : ℚ) (h : WF p) :
    WF (SetIntegralLimits p a b).2 := by
  unfold SetIntegralLimits
  split_ifs with h1
  · exact h
  · simp only [not_lt] at h1
    exact ⟨h.1, (clampQ_between a b p.integral h1).1, (clampQ_between a b p.integral h1).2⟩

theorem wf_updateInternal (p : PID) (v dt : ℚ) (h : WF p) :
    WF (updateInternal p v dt).2 := by
  obtain ⟨h1, h2, h3⟩ := h
  have hm : p.integralMin ≤ p.integralMax := le_trans h2 h3
  exact ⟨h1,
    (clampQ_between p.integralMin p.integralMax (p.integral + appliedError p v * dt) hm).1,
    (clampQ_between p.integralMin p.integralMax (p.integral + appliedError p v * dt) hm).2⟩

theorem wf_applyOp (p : PID) (o : Op) (h : WF p) : WF (applyOp p o) := by
  cases o with
  | setOutputLimits a b => exact wf_SetOutputLimits p a b h
  | setIntegralLimits a b => exact wf_SetIntegralLimits p a b h
  | setSetPoint v => exact h
  | setPID a b c => exact h
  | update v n => exact wf_updateInternal { p with lastUpdate := n } v (n - p.lastUpdate) h
  | updateDuration v dt => exact wf_updateInternal p v dt h

theorem wf_foldl (ops : List Op) (p : PID) (h : WF p) :
    WF (List.foldl applyOp p ops) := by
  induction ops generalizing p with
  | nil => exact h
  | cons o rest ih => exact ih (applyOp p o) (wf_applyOp p o h)

theorem wf_reachable (p : PID) (h : Reachable p) : WF p := by
  obtain ⟨kp, ki, kd, db, now, ops, rfl⟩ := h
  exact wf_foldl ops _ (wf_NewPID kp ki kd db now)

/-- C1: from every reachable controller state, the value returned by an
update call (either entry point) lies between the output limits in effect
during that call.  Updates never change the limits, so along any sequence of
`Update`/`UpdateDuration` calls every returned value is bounded by the limits
in effect at that call. -/
theorem update_output_within_output_limits (p : PID) (v dt mv now : ℚ)
    (h : Reachable p) :
    (Ext.ble p.outputMin (UpdateDuration p v dt).1 = true ∧
     Ext.ble (UpdateDuration p v dt).1 p.outputMax = true) ∧
    (Ext.ble p.outputMin (Update p mv now).1 = true ∧
     Ext.ble (Update p mv now).1 p.outputMax = true) := by
  have hwf := wf_reachable p h
  exact ⟨clampOut_between p.outputMin p.outputMax _ hwf.1,
         clampOut_between p.outputMin p.outputMax _ hwf.1⟩

theorem update_output_within_output_limits_witness :
    (Ext.ble (NewPID 1 0 0 0 0).outputMin (UpdateDuration (NewPID 1 0 0 0 0) 2 1).1 = true ∧
     Ext.ble (UpdateDuration (NewPID 1 0 0 0 0) 2 1).1 (NewPID 1 0 0 0 0).outputMax = true) ∧
    (Ext.ble (NewPID 1 0 0 0 0).outputMin (Update (NewPID 1 0 0 0 0) 3 2).1 = true ∧
     Ext.ble (Update (NewPID 1 0 0 0 0) 3 2).1 (NewPID 1 0 0 0 0).outputMax = true) :=
  update_output_within_output_limits (NewPID 1 0 0 0 0) 2 1 3 2 ⟨1, 0, 0, 0, 0, [], rfl⟩

/-- C2: in every reachable state the integral accumulator lies inside the
integral limits; moreover from such a state it still does after any further
update and immediately after any successful `SetIntegralLimits`, including
when the new range shrinks below the accumulated value. -/
theorem integral_within_integral_limits (p : PID) (h : Reachable p) :
    (p.integralMin ≤ p.integral ∧ p.integral ≤ p.integralMax) ∧
    (∀ v dt, (UpdateDuration p v dt).2.integralMin ≤ (UpdateDuration p v dt).2.integral ∧
             (UpdateDuration p v dt).2.integral ≤ (UpdateDuration p v dt).2.integralMax) ∧
    (∀ a b : ℚ, a ≤ b →
      (SetIntegralLimits p a b).2.integralMin ≤ (SetIntegralLimits p a b).2.integral ∧
      (SetIntegralLimits p a b).2.integral ≤ (SetIntegralLimits p a b).2.integralMax) := by
  have hwf := wf_reachable p h
  refine ⟨⟨hwf.2.1, hwf.2.2⟩, ?_, ?_⟩
  · intro v dt
    exact ⟨(wf_updateInternal p v dt hwf).2.1, (wf_updateInternal p v dt hwf).2.2⟩
  · intro a b _
    exact ⟨(wf_SetIntegralLimits p a b hwf).2.1, (wf_SetIntegralLimits p a b hwf).2.2⟩

theorem integral_within_integral_limits_witness :
    ((NewPID 1 0 0 0 0).integralMin ≤ (NewPID 1 0 0 0 0).integral ∧
     (NewPID 1 0 0 0 0).integral ≤ (NewPID 1 0 0 0 0).integralMax) ∧
    (∀ v dt, (UpdateDuration (NewPID 1 0 0 0 0) v dt).2.integralMin ≤
               (UpdateDuration (NewPID 1 0 0 0 0) v dt).2.integral ∧
             (UpdateDuration (NewPID 1 0 0 0 0) v dt).2.integral ≤
               (UpdateDuration (NewPID 1 0 0 0 0) v dt).2.integralMax) ∧
    (∀ a b : ℚ, a ≤ b →
      (SetIntegralLimits (NewPID 1 0 0 0 0) a b).2.integralMin ≤
        (SetIntegralLimits (NewPID 1 0 0 0 0) a b).2.integral ∧
      (SetIntegralLimits (NewPID 1 0 0 0 0) a b).2.integral ≤
        (SetIntegralLimits (NewPID 1 0 0 0 0) a b).2.integralMax) :=
  integral_within_integral_limits (NewPID 1 0 0 0 0) ⟨1, 0, 0, 0, 0, [], rfl⟩

/-- C3: `SetOutputLimits`/`SetIntegralLimits` fail exactly when `min > max`;
on failure the entire state is unchanged, and on success the new bounds are
stored. -/
theorem set_limits_invalid_range (p : PID) (a b : ℚ) :
    ((SetOutputLimits p a b).1 ≠ none ↔ a > b) ∧
    ((SetIntegralLimits p a b).1 ≠ none ↔ a > b) ∧
    (a > b → (SetOutputLimits p a b).2 = p ∧ (SetIntegralLimits p a b).2 = p) ∧
    (a ≤ b →
      (SetOutputLimits p a b).2.outputMin = Ext.fin a ∧
      (SetOutputLimits p a b).2.outputMax = Ext.fin b ∧
      (SetIntegralLimits p a b).2.integralMin = a ∧
      (SetIntegralLimits p a b).2.integralMax = b) := by
  refine ⟨?_, ?_, ?_, ?_⟩
  · unfold SetOutputLimits
    split_ifs with h <;> simp [h]
  · unfold SetIntegralLimits
    split_ifs with h <;> simp [h]
  · intro h
    unfold SetOutputLimits SetIntegralLimits
    simp [h]
  · intro h
    unfold SetOutputLimits SetIntegralLimits
    simp [not_lt.mpr h]

theorem set_limits_invalid_range_witness :
    ((SetOutputLimits (NewPID 1 0 0 0 0) 2 10).1 ≠ none ↔ (2 : ℚ) > 10) ∧
    ((SetIntegralLimits (NewPID 1 0 0 0 0) 2 10).1 ≠ none ↔ (2 : ℚ) > 10) ∧
    ((2 : ℚ) > 10 → (SetOutputLimits (NewPID 1 0 0 0 0) 2 10).2 = NewPID 1 0 0 0 0 ∧
                    (SetIntegralLimits (NewPID 1 0 0 0 0) 2 10).2 = NewPID 1 0 0 0 0) ∧
    ((2 : ℚ) ≤ 10 →
      (SetOutputLimits (NewPID 1 0 0 0 0) 2 10).2.outputMin = Ext.fin 2 ∧
      (SetOutputLimits (NewPID 1 0 0 0 0) 2 10).2.outputMax = Ext.fin 10 ∧
      (SetIntegralLimits (NewPID 1 0 0 0 0) 2 10).2.integralMin = 2 ∧
      (SetIntegralLimits (NewPID 1 0 0 0 0) 2 10).2.integralMax = 10) :=
  set_limits_invalid_range (NewPID 1 0 0 0 0) 2 10

/-- C4: when `|setPoint - measuredValue| < deadBand` the step's error is
forced to `0`, so the integral accumulator is unchanged (given the integral
invariant, which holds in every reachable state) and the output is the clamp
of `ki*integral + kd*derivative` alone — the proportional contribution is
zero. -/
theorem deadband_zeroes_step (p : PID) (v dt : ℚ)
    (hdb : |p.setPoint - v| < p.deadBand)
    (h1 : p.integralMin ≤ p.integral) (h2 : p.integral ≤ p.integralMax) :
    appliedError p v = 0 ∧
    (updateInternal p v dt).2.integral = p.integral ∧
    (updateInternal p v dt).1 =
      clampOut p.outputMin p.outputMax
        (p.ki * p.integral + p.kd * derivativeTerm p.prevValue v dt) := by
  have he : appliedError p v = 0 := by
    unfold appliedError
    simp [hdb]
  have hint0 : clampQ p.integralMin p.integralMax (p.integral + 0 * dt) = p.integral := by
    have hz : p.integral + 0 * dt = p.integral := by ring
    rw [hz]
    unfold clampQ
    rw [if_neg (not_lt.mpr h2), if_neg (not_lt.mpr h1)]
  have hint : (updateInternal p v dt).2.integral = p.integral := by
    show clampQ p.integralMin p.integralMax (p.integral + appliedError p v * dt) = p.integral
    rw [he]
    exact hint0
  refine ⟨he, hint, ?_⟩
  show clampOut p.outputMin p.outputMax
      (p.kp * appliedError p v +
       p.ki * clampQ p.integralMin p.integralMax (p.integral + appliedError p v * dt) +
       p.kd * derivativeTerm p.prevValue v dt) = _
  rw [he, hint0]
  congr 1
  ring

theorem deadband_zeroes_step_witness :
    |(NewPID 1 1 1 5 0).setPoint - 1| < (NewPID 1 1 1 5 0).deadBand ∧
    (appliedError (NewPID 1 1 1 5 0) 1 = 0 ∧
     (updateInternal (NewPID 1 1 1 5 0) 1 1).2.integral = (NewPID 1 1 1 5 0).integral ∧
     (updateInternal (NewPID 1 1 1 5 0) 1 1).1 =
       clampOut (NewPID 1 1 1 5 0).outputMin (NewPID 1 1 1 5 0).outputMax
         ((NewPID 1 1 1 5 0).ki * (NewPID 1 1 1 5 0).integral +
          (NewPID 1 1 1 5 0).kd * derivativeTerm (NewPID 1 1 1 5 0).prevValue 1 1)) :=
  ⟨by norm_num [NewPID],
   deadband_zeroes_step (NewPID 1 1 1 5 0) 1 1 (by norm_num [NewPID])
     (by norm_num [NewPID]) (by norm_num [NewPID])⟩

/-- C5: `prevValue` starts at `0` in a fresh controller; every update stores
the measured value as the new `prevValue`; and the output of an update is the
clamp of `kp*err + ki*integral + kd*D`, where the derivative term `D` is
`-(measuredValue - prevValue)/dt` when `dt > 0` and `0` when `dt ≤ 0`. -/
theorem derivative_on_measurement (p : PID) (v dt kp ki kd db now : ℚ) :
    (NewPID kp ki kd db now).prevValue = 0 ∧
    (updateInternal p v dt).2.prevValue = v ∧
    (dt > 0 → (updateInternal p v dt).1 =
       clampOut p.outputMin p.outputMax
         (p.kp * appliedError p v + p.ki * (updateInternal p v dt).2.integral +
          p.kd * (-(v - p.prevValue) / dt))) ∧
    (dt ≤ 0 → (updateInternal p v dt).1 =
       clampOut p.outputMin p.outputMax
         (p.kp * appliedError p v + p.ki * (updateInternal p v dt).2.integral +
          p.kd * 0)) := by
  refine ⟨rfl, rfl, ?_, ?_⟩
  · intro h
    have hd : derivativeTerm p.prevValue v dt = -(v - p.prevValue) / dt := by
      unfold derivativeTerm
      exact if_pos h
    rw [← hd]
    rfl
  · intro h
    have hd : derivativeTerm p.prevValue v dt = 0 := by
      unfold derivativeTerm
      exact if_neg (not_lt.mpr h)
    rw [← hd]
    rfl

theorem derivative_on_measurement_witness :
    (NewPID 1 0 0 0 0).prevValue = 0 ∧
    (updateInternal (NewPID 1 0 0 0 0) 2 1).2.prevValue = 2 ∧
    ((1 : ℚ) > 0 → (updateInternal (NewPID 1 0 0 0 0) 2 1).1 =
       clampOut (NewPID 1 0 0 0 0).outputMin (NewPID 1 0 0 0 0).outputMax
         ((NewPID 1 0 0 0 0).kp * appliedError (NewPID 1 0 0 0 0) 2 +
          (NewPID 1 0 0 0 0).ki * (updateInternal (NewPID 1 0 0 0 0) 2 1).2.integral +
          (NewPID 1 0 0 0 0).kd * (-(2 - (NewPID 1 0 0 0 0).prevValue) / 1))) ∧
    ((1 : ℚ) ≤ 0 → (updateInternal (NewPID 1 0 0 0 0) 2 1).1 =
       clampOut (NewPID 1 0 0 0 0).outputMin (NewPID 1 0 0 0 0).outputMax
         ((NewPID 1 0 0 0 0).kp * appliedError (NewPID 1 0 0 0 0) 2 +
          (NewPID 1 0 0 0 0).ki * (updateInternal (NewPID 1 0 0 0 0) 2 1).2.integral +
          (NewPID 1 0 0 0 0).kd * 0)) :=
  derivative_on_measurement (NewPID 1 0 0 0 0) 2 1 1 0 0 0 0

/-- C6: the derivative term of an update step is unchanged when only the set
point differs (`SetSetPoint` alters nothing the derivative computation reads):
derivative-kick avoidance. -/
theorem derivative_ignores_setpoint (p : PID) (x v dt : ℚ) :
    derivativeTerm (SetSetPoint p x).prevValue v dt =
      derivativeTerm p.prevValue v dt := rfl

/-- C7: with `kp=1, ki=0, kd=0, deadBand=0`, output limits `[2,10]` and set
point `100`, `UpdateDuration(0, 0.1)` returns exactly `10`: the raw output
`1*(100-0) = 100` is clamped to the output maximum. -/
theorem clamp_scenario_output_ten :
    (UpdateDuration (SetSetPoint (SetOutputLimits (NewPID 1 0 0 0 0) 2 10).2 100)
       0 (1 / 10)).1 = Ext.fin 10 := by
  norm_num [UpdateDuration, updateInternal, SetSetPoint, SetOutputLimits, NewPID,
    appliedError, derivativeTerm, clampQ, clampOut, Ext.blt]

/-- C8: `UpdateDuration` leaves `lastUpdate` and every configuration field
(gains, set point, dead-band, all four limits) unchanged — only `integral`,
`prevValue`, `prevError` may change — and it returns exactly what `Update`
returns when the wall clock makes `dt = now - lastUpdate`. -/
theorem updateDuration_frame (p : PID) (v dt : ℚ) :
    (UpdateDuration p v dt).2.lastUpdate = p.lastUpdate ∧
    (UpdateDuration p v dt).2.kp = p.kp ∧
    (UpdateDuration p v dt).2.ki = p.ki ∧
    (UpdateDuration p v dt).2.kd = p.kd ∧
    (UpdateDuration p v dt).2.setPoint = p.setPoint ∧
    (UpdateDuration p v dt).2.deadBand = p.deadBand ∧
    (UpdateDuration p v dt).2.outputMin = p.outputMin ∧
    (UpdateDuration p v dt).2.outputMax = p.outputMax ∧
    (UpdateDuration p v dt).2.integralMin = p.integralMin ∧
    (UpdateDuration p v dt).2.integralMax = p.integralMax ∧
    (∀ now, (Update p v now).1 = (UpdateDuration p v (now - p.lastUpdate)).1) :=
  ⟨rfl, rfl, rfl, rfl, rfl, rfl, rfl, rfl, rfl, rfl, fun _ => rfl⟩

/-- C9: the core update step is deterministic — a pure function of the state
and the `(measuredValue, dt)` arguments, with no hidden inputs: equal states
and equal arguments give equal outputs and equal successor states. -/
theorem updateDuration_deterministic (p q : PID) (v dt : ℚ) (h : p = q) :
    (UpdateDuration p v dt).1 = (UpdateDuration q v dt).1 ∧
    (UpdateDuration p v dt).2 = (UpdateDuration q v dt).2 := by
  subst h
  exact ⟨rfl, rfl⟩

theorem updateDuration_deterministic_witness :
    (UpdateDuration (NewPID 1 0 0 0 0) 5 1).1 = (UpdateDuration (NewPID 1 0 0 0 0) 5 1).1 ∧
    (UpdateDuration (NewPID 1 0 0 0 0) 5 1).2 = (UpdateDuration (NewPID 1 0 0 0 0) 5 1).2 :=
  updateDuration_deterministic (NewPID 1 0 0 0 0) (NewPID 1 0 0 0 0) 5 1 rfl

/-- C10: the dead-band comparison is strict — an error of magnitude exactly
`deadBand` is not zeroed — and with a negative dead-band (the constructor
performs no validation, and no setter ever changes `deadBand`) the error is
never zeroed in any update: the stored `prevError` is the raw error. -/
theorem deadband_strict (p : PID) (v dt : ℚ) :
    (|p.setPoint - v| = p.deadBand → appliedError p v = p.setPoint - v) ∧
    (p.deadBand < 0 →
      appliedError p v = p.setPoint - v ∧
      (updateInternal p v dt).2.prevError = p.setPoint - v) := by
  constructor
  · intro h
    show (if |p.setPoint - v| < p.deadBand then 0 else p.setPoint - v) = p.setPoint - v
    rw [if_neg (not_lt.mpr h.ge)]
  · intro h
    have he : appliedError p v = p.setPoint - v := by
      show (if |p.setPoint - v| < p.deadBand then 0 else p.setPoint - v) = p.setPoint - v
      rw [if_neg (not_lt.mpr (le_trans h.le (abs_nonneg _)))]
    exact ⟨he, he⟩

theorem deadband_strict_witness :
    (NewPID 1 1 1 (-1) 0).deadBand < 0 ∧
    appliedError (NewPID 1 1 1 (-1) 0) 2 = (NewPID 1 1 1 (-1) 0).setPoint - 2 ∧
    (updateInternal (NewPID 1 1 1 (-1) 0) 2 1).2.prevError =
      (NewPID 1 1 1 (-1) 0).setPoint - 2 :=
  ⟨by norm_num [NewPID],
   ((deadband_strict (NewPID 1 1 1 (-1) 0) 2 1).2 (by norm_num [NewPID])).1,
   ((deadband_strict (NewPID 1 1 1 (-1) 0) 2 1).2 (by norm_num [NewPID])).2⟩

end Pidpool
